import Mathlib

/-!
Shallow embedding of the BikeNYC DeepSTN dataset construction
(`geotorchai/datasets/grid/nyc_bike_deepstn.py`).

Arrays are modelled as nested lists of rationals: a `Chan` is a 2-D
spatial grid (height × width), a `Frame` is a list of channels, and an
`Arr` is a time-ordered list of frames (numpy axis 0 is time, axis 1 is
channels).  Numpy basic slicing — negative indices count from the end,
bounds are clamped — is modelled by `npIdx` / `npSlice`.  Fallible numpy
and python operations (`np.concatenate` with mismatched axis-0 lengths,
out-of-bounds index assignment, `np.stack` of an empty list, reading an
attribute that was never assigned) are modelled with `Option` / `Except`.
`torch.tensor` conversions are identities in this model.
-/

abbrev Chan : Type := List (List ℚ)

abbrev Frame : Type := List Chan

abbrev Arr : Type := List Frame

/-- Normalisation of a python/numpy slice bound for an axis of length `n`:
a negative index counts from the end of the axis, and the result is
clamped to `[0, n]`. -/
def npIdx (n : ℕ) (v : ℤ) : ℕ :=
  if v < 0 then (v + n).toNat else min v.toNat n

/-- Numpy basic slice `xs[a:b]` (step 1) along axis 0. -/
def npSlice (xs : List α) (a b : ℤ) : List α :=
  (xs.take (npIdx xs.length b)).drop (npIdx xs.length a)

/-- Model of `np.concatenate((x, y), axis=1)` on time-major arrays: the
axis-0 lengths must agree, then the channel lists are concatenated
frame-wise; `none` models the `ValueError` numpy raises on mismatched
axis-0 lengths. -/
def concatAxis1 (x y : Arr) : Option Arr :=
  if x.length = y.length then some (List.zipWith (· ++ ·) x y) else none

/-- Collects a list of optional values, failing if any element is `none`
(used to model a python loop whose body may raise). -/
def optList : List (Option α) → Option (List α)
  | [] => some []
  | o :: rest => o.bind (fun x => (optList rest).map (fun xs => x :: xs))

/-- Spatial channel of shape height × width filled with ones. -/
def onesChan (H W : ℕ) : Chan := List.replicate H (List.replicate W 1)

/-- Spatial channel of shape height × width filled with zeros. -/
def zerosChan (H W : ℕ) : Chan := List.replicate H (List.replicate W 0)

/-- Model of `m[i, c, :, :] = 1` on a fresh `np.zeros([nCh, H, W])` frame:
channel index `c` may be negative (numpy wraps it once by `+ nCh`); an
index that is still out of bounds raises `IndexError`, modelled by `none`. -/
def mkMaskFrame (nCh H W : ℕ) (c : ℤ) : Option Frame :=
  let c' : ℤ := if c < 0 then c + nCh else c
  if 0 ≤ c' ∧ c'.toNat < nCh then
    some ((List.replicate nCh (zerosChan H W)).set c'.toNat (onesChan H W))
  else none

/-- Source line `time_hour = time % T_period` at timestep `i`
(python `%` is floor-convention modulo, i.e. `Int.fmod`). -/
def hourIndex (T_period : ℤ) (i : ℕ) : ℤ := (i : ℤ).fmod T_period

/-- Source lines `time_day = (time // T_period) % 7` at timestep `i`
(python `//` is floor division, i.e. `Int.fdiv`). -/
def dayIndex (T_period : ℤ) (i : ℕ) : ℤ := ((i : ℤ).fdiv T_period).fmod 7

/-- The `matrix_hour` loop: one 24-channel one-hot frame per timestep;
`none` models the `IndexError` raised when some `time_hour[i] ≥ 24`. -/
def mkHourMatrix (lenTotal : ℕ) (T_period : ℤ) (H W : ℕ) : Option Arr :=
  optList ((List.range lenTotal).map (fun i => mkMaskFrame 24 H W (hourIndex T_period i)))

/-- The `matrix_day` loop: one 7-channel one-hot frame per timestep. -/
def mkDayMatrix (lenTotal : ℕ) (T_period : ℤ) (H W : ℕ) : Option Arr :=
  optList ((List.range lenTotal).map (fun i => mkMaskFrame 7 H W (dayIndex T_period i)))

/-- Error kinds produced during dataset construction.  `invalidParameters`
models `InvalidParametersException("Wrong parameters")`; the others model
the corresponding python exception classes. -/
inductive CreateError where
  | invalidParameters
  | indexError
  | valueError
  | attributeError
deriving DecidableEq

/-- Source lines computing `number_of_skip_hours`: trend is preferred,
then period, then closeness; if no scale is enabled the constructor
raises `InvalidParametersException`. -/
def numberOfSkipHours (len_closeness len_period len_trend : ℕ)
    (T_closeness T_period T_trend : ℤ) : Except CreateError ℤ :=
  if len_trend > 0 then .ok (T_trend * len_trend)
  else if len_period > 0 then .ok (T_period * len_period)
  else if len_closeness > 0 then .ok (T_closeness * len_closeness)
  else .error .invalidParameters

/-- One scale's window stack: the initial slice is
`all_data[skip - T : len_total - T]`, and iteration `i` of the loop
concatenates `all_data[skip - T*(2+i) : len_total - T*(2+i)]` along the
channel axis.  `none` models a `ValueError` from `np.concatenate`. -/
def buildScale (data : Arr) (skip T : ℤ) (L : ℕ) : Option Arr :=
  (List.range (L - 1)).foldl
    (fun acc (i : ℕ) => acc.bind fun X =>
      concatAxis1 X (npSlice data (skip - T * (2 + (i : ℤ)))
        ((data.length : ℤ) - T * (2 + (i : ℤ)))))
    (some (npSlice data (skip - T) ((data.length : ℤ) - T)))

/-- Runs the scale-building block guarded by `if len_s > 0`: when the
scale is disabled the attribute is never assigned (`none`); when enabled,
a concatenation failure aborts construction with a `ValueError`. -/
def buildScaleField (data : Arr) (skip T : ℤ) (L : ℕ) :
    Except CreateError (Option Arr) :=
  if L > 0 then
    match buildScale data skip T L with
    | none => .error .valueError
    | some X => .ok (some X)
  else .ok none

/-- Maximum entry of a channel (`np.max(poi[i])`); 0 on an empty channel,
which the source never hits. -/
def chanMax (c : Chan) : ℚ :=
  match c.flatten with
  | [] => 0
  | x :: xs => xs.foldl max x

/-- The POI normalisation loop `poi[i] = poi[i] / np.max(poi[i])`. -/
def normalizePoi (poi : Frame) : Frame :=
  poi.map (fun ch => ch.map (fun row => row.map (fun x => x / chanMax ch)))

/-- The six arrays assigned by `_create_feature_vector`.  A scale whose
length parameter is 0 leaves its attribute unassigned, modelled by `none`. -/
structure FeatureVectors where
  X_closeness : Option Arr
  X_period : Option Arr
  X_trend : Option Arr
  T_data : Arr
  P_data : Arr
  Y_data : Arr
deriving DecidableEq

/-- Shallow embedding of `_create_feature_vector`, in source order: the
hour and day one-hot matrices (which may raise `IndexError`), the skip
offset (which may raise `InvalidParametersException`), the target slice
`Y`, the three scale stacks (which may raise `ValueError`), the trimmed
temporal mask, then `len_data = X_closeness.shape[0]` (an
`AttributeError` when closeness is disabled) and the replicated POI
array.  `map_height` / `map_width` come from `all_data.shape` in the
source and are passed explicitly here. -/
def create_feature_vector (all_data : Arr) (poi : Frame) (H W : ℕ)
    (len_closeness len_period len_trend : ℕ)
    (T_closeness T_period T_trend : ℤ) : Except CreateError FeatureVectors :=
  let len_total := all_data.length
  match mkHourMatrix len_total T_period H W with
  | none => .error .indexError
  | some matrix_hour =>
    match mkDayMatrix len_total T_period H W with
    | none => .error .indexError
    | some matrix_day =>
      -- np.concatenate axis=1; both matrices have axis-0 length len_total
      let matrix_T := List.zipWith (· ++ ·) matrix_hour matrix_day
      match numberOfSkipHours len_closeness len_period len_trend T_closeness T_period T_trend with
      | .error e => .error e
      | .ok skip =>
        let Y := npSlice all_data skip len_total
        match buildScaleField all_data skip T_closeness len_closeness with
        | .error e => .error e
        | .ok xC =>
          match buildScaleField all_data skip T_period len_period with
          | .error e => .error e
          | .ok xP =>
            match buildScaleField all_data skip T_trend len_trend with
            | .error e => .error e
            | .ok xT =>
              let T_data := npSlice matrix_T skip matrix_T.length
              match xC with
              | none => .error .attributeError
              | some Xc =>
                let len_data := Xc.length
                let P_data := List.replicate len_data (normalizePoi poi)
                .ok ⟨some Xc, xP, xT, T_data, P_data, Y⟩

/-- Flattened elements of a time-major array. -/
def arrElems (a : Arr) : List ℚ := a.flatten.flatten.flatten

/-- Model of `np.max` over the whole array (0 on empty, never hit). -/
def arrMax (a : Arr) : ℚ :=
  match arrElems a with
  | [] => 0
  | x :: xs => xs.foldl max x

/-- Model of `np.min` over the whole array (0 on empty, never hit). -/
def arrMin (a : Arr) : ℚ :=
  match arrElems a with
  | [] => 0
  | x :: xs => xs.foldl min x

/-- Min-max normalisation of one element:
`(2*x - (max_data + min_data)) / (max_data - min_data)`. -/
def normalizeElem (maxD minD x : ℚ) : ℚ := (2 * x - (maxD + minD)) / (maxD - minD)

/-- Inverse of `normalizeElem`: `(y * (max-min) + (max+min)) / 2`. -/
def denormalizeElem (maxD minD y : ℚ) : ℚ := (y * (maxD - minD) + (maxD + minD)) / 2

/-- Elementwise map over a time-major array. -/
def mapArr (f : ℚ → ℚ) (a : Arr) : Arr :=
  a.map (List.map (List.map (List.map f)))

/-- The value stored in the `Y_data` attribute: the periodical
constructor stores a (samples, channels, H, W) array of frames, while
`set_sequential_representation` overwrites it with a stacked
(samples, prediction_length, channels, H, W) array of frame sequences. -/
inductive YVal where
  | frames (a : Arr)
  | seqs (s : List Arr)
deriving DecidableEq

/-- Axis-0 length of the stored `Y_data`. -/
def YVal.len : YVal → ℕ
  | .frames a => a.length
  | .seqs s => s.length

/-- Elementwise map over the stored `Y_data`. -/
def YVal.mapQ (f : ℚ → ℚ) : YVal → YVal
  | .frames a => .frames (mapArr f a)
  | .seqs s => .seqs (s.map (mapArr f))

/-- Instance attributes of a `BikeNYCDeepSTN` object.  Attributes that
the source only assigns in some code paths (`X_data`, `lead_time_data`,
`lead_time`, the three scale arrays) are `Option`s. -/
structure BikeNYCDeepSTN where
  full_data : Arr
  min_max_diff : ℚ
  X_closeness : Option Arr
  X_period : Option Arr
  X_trend : Option Arr
  T_data : Arr
  P_data : Arr
  Y_data : YVal
  X_data : Option (List Arr)
  lead_time_data : Option Arr
  lead_time : Option ℤ
  use_lead_time : Bool
  sequential : Bool
  periodical : Bool
deriving DecidableEq

/-- Shallow embedding of `__init__` after the two files are loaded:
global max/min, optional in-place normalisation of the full series,
`_create_feature_vector`, then the initial mode flags. -/
def initDataset (flow_data : Arr) (poi : Frame) (H W : ℕ)
    (len_closeness len_period len_trend : ℕ)
    (T_closeness T_period T_trend : ℤ) (normalize : Bool) :
    Except CreateError BikeNYCDeepSTN :=
  let max_data := arrMax flow_data
  let min_data := arrMin flow_data
  let full_data := if normalize then mapArr (normalizeElem max_data min_data) flow_data
    else flow_data
  match create_feature_vector full_data poi H W len_closeness len_period len_trend
      T_closeness T_period T_trend with
  | .error e => .error e
  | .ok fv =>
    .ok { full_data := full_data
          min_max_diff := max_data - min_data
          X_closeness := fv.X_closeness
          X_period := fv.X_period
          X_trend := fv.X_trend
          T_data := fv.T_data
          P_data := fv.P_data
          Y_data := .frames fv.Y_data
          X_data := none
          lead_time_data := none
          lead_time := none
          use_lead_time := false
          sequential := false
          periodical := true }

/-- Accessor `get_min_max_difference`. -/
def get_min_max_difference (st : BikeNYCDeepSTN) : ℚ := st.min_max_diff

/-- Shallow embedding of `set_sequential_representation`: for each
`end_idx` in `range(history_length + prediction_length, total_length)`
slice a history/prediction pair from the full series; `np.stack` of an
empty list raises `ValueError`.  On success `X_data` and `Y_data` are
overwritten and the mode flags switched. -/
def set_sequential_representation (st : BikeNYCDeepSTN)
    (history_length prediction_length : ℕ) : Except CreateError BikeNYCDeepSTN :=
  let total_length := st.full_data.length
  let idxs := List.range' (history_length + prediction_length)
    (total_length - (history_length + prediction_length))
  let history_data := idxs.map (fun (e : ℕ) =>
    npSlice st.full_data ((e : ℤ) - prediction_length - history_length)
      ((e : ℤ) - prediction_length))
  let predict_data := idxs.map (fun (e : ℕ) =>
    npSlice st.full_data ((e : ℤ) - prediction_length) (e : ℤ))
  match history_data, predict_data with
  | [], _ => .error .valueError
  | _, [] => .error .valueError
  | _, _ =>
    .ok { st with
          X_data := some history_data
          Y_data := .seqs predict_data
          use_lead_time := false
          sequential := true
          periodical := false }

/-- Shallow embedding of `merge_closeness_period_trend`. -/
def merge_closeness_period_trend (st : BikeNYCDeepSTN) (lead_time : ℤ) :
    BikeNYCDeepSTN :=
  { st with
    lead_time_data := some st.full_data
    lead_time := some lead_time
    use_lead_time := true
    sequential := false
    periodical := false }

/-- Shallow embedding of `__len__`.  The `getD` defaults are never hit:
`merge_closeness_period_trend` always assigns both lead-time attributes
before setting `use_lead_time`. -/
def datasetLen (st : BikeNYCDeepSTN) : ℤ :=
  if st.use_lead_time then
    ((st.lead_time_data.getD []).length : ℤ) - st.lead_time.getD 0
  else (st.Y_data.len : ℤ)

/-- Fallback object used only to project out of an `Except` that is
known to be `ok`. -/
def defaultDataset : BikeNYCDeepSTN :=
  { full_data := []
    min_max_diff := 0
    X_closeness := none
    X_period := none
    X_trend := none
    T_data := []
    P_data := []
    Y_data := .frames []
    X_data := none
    lead_time_data := none
    lead_time := none
    use_lead_time := false
    sequential := false
    periodical := true }

/-- Projection out of a construction result known to be `ok`. -/
def dsOf (r : Except CreateError BikeNYCDeepSTN) : BikeNYCDeepSTN :=
  r.toOption.getD defaultDataset

/-- Fallback feature-vector record for projections. -/
def defaultFV : FeatureVectors :=
  { X_closeness := none, X_period := none, X_trend := none
    T_data := [], P_data := [], Y_data := [] }

/-- Projection out of a `_create_feature_vector` result known to be `ok`. -/
def fvOf (r : Except CreateError FeatureVectors) : FeatureVectors :=
  r.toOption.getD defaultFV

/-- Modelled from the spec: the skip offset described in the data-model
section as the maximum lag-span among the enabled scales (this is the
spec's wording, kept separate so it can be compared with the source's
priority rule `numberOfSkipHours`). -/
def specSkipMax (len_closeness len_period len_trend : ℕ)
    (T_closeness T_period T_trend : ℤ) : Except CreateError ℤ :=
  let spans : List ℤ :=
    (if len_closeness > 0 then [T_closeness * len_closeness] else []) ++
    (if len_period > 0 then [T_period * len_period] else []) ++
    (if len_trend > 0 then [T_trend * len_trend] else [])
  match spans with
  | [] => .error .invalidParameters
  | x :: xs => .ok (xs.foldl max x)

/-- Sum of all entries of a channel. -/
def chanSum (c : Chan) : ℚ := (c.map (fun row => row.sum)).sum

/-- Sum of all entries of a frame. -/
def frameSum (f : Frame) : ℚ := (f.map chanSum).sum

/-- One lagged frame per lag index, concatenated along the channel axis:
the value of sample `j` of a scale stack built with `n` lags. -/
def lagChunks (data : Arr) (skip T : ℤ) (j : ℕ) (n : ℕ) : Frame :=
  ((List.range n).map
    (fun (k : ℕ) => data.getD (skip + j - T * ((k : ℤ) + 1)).toNat [])).flatten

/-- The whole scale stack with `n` lags: one `lagChunks` frame per sample. -/
def lagStack (data : Arr) (skip T : ℤ) (n : ℕ) : Arr :=
  (List.range ((data.length : ℤ) - skip).toNat).map
    (fun (j : ℕ) => lagChunks data skip T j n)

/-- The hour one-hot frame for timestep `i`. -/
def hourFrame (Tp : ℤ) (H W i : ℕ) : Frame :=
  (List.replicate 24 (zerosChan H W)).set (hourIndex Tp i).toNat (onesChan H W)

/-- The day one-hot frame for timestep `i`. -/
def dayFrame (Tp : ℤ) (H W i : ℕ) : Frame :=
  (List.replicate 7 (zerosChan H W)).set (dayIndex Tp i).toNat (onesChan H W)

/-- The concatenated hour-and-day mask series `matrix_T` before trimming. -/
def maskMatrix (n H W : ℕ) (Tp : ℤ) : Arr :=
  List.zipWith (· ++ ·) ((List.range n).map (hourFrame Tp H W))
    ((List.range n).map (dayFrame Tp H W))

lemma npIdx_le (n : ℕ) (v : ℤ) : npIdx n v ≤ n := by
  unfold npIdx
  split
  · omega
  · exact min_le_right _ _

lemma npIdx_of_nonneg (n : ℕ) (v : ℤ) (h : 0 ≤ v) : npIdx n v = min v.toNat n := by
  unfold npIdx
  split
  · omega
  · rfl

lemma npSlice_length (xs : List α) (a b : ℤ) :
    (npSlice xs a b).length = npIdx xs.length b - npIdx xs.length a := by
  unfold npSlice
  rw [List.length_drop, List.length_take]
  have := npIdx_le xs.length b
  omega

lemma npSlice_getElem? (xs : List α) (a b : ℤ) (j : ℕ)
    (hj : j < (npSlice xs a b).length) :
    (npSlice xs a b)[j]? = xs[npIdx xs.length a + j]? := by
  have hlen := npSlice_length xs a b
  unfold npSlice
  rw [List.getElem?_drop, List.getElem?_take, if_pos (by omega)]

lemma npSlice_getD (xs : List α) (a b : ℤ) (j : ℕ) (d : α)
    (hj : j < (npSlice xs a b).length) :
    (npSlice xs a b).getD j d = xs.getD (npIdx xs.length a + j) d := by
  rw [List.getD_eq_getElem?_getD, List.getD_eq_getElem?_getD, npSlice_getElem? xs a b j hj]

lemma npSlice_nil (xs : List α) (a b : ℤ)
    (h : npIdx xs.length b ≤ npIdx xs.length a) : npSlice xs a b = [] := by
  unfold npSlice
  apply List.drop_eq_nil_of_le
  rw [List.length_take]
  omega

lemma optList_eq_some (d : α) (l : List (Option α)) (h : ∀ o ∈ l, o.isSome) :
    optList l = some (l.map (fun o => o.getD d)) := by
  induction l with
  | nil => rfl
  | cons o rest ih =>
    obtain ⟨x, hx⟩ := Option.isSome_iff_exists.mp (h o (by simp))
    rw [hx]
    simp [optList, ih (fun o ho => h o (by simp [ho]))]

lemma optList_eq_none (l : List (Option α)) (h : none ∈ l) : optList l = none := by
  induction l with
  | nil => cases h
  | cons o rest ih =>
    cases h with
    | head => simp [optList]
    | tail _ h' => cases o <;> simp [optList, ih h']

lemma mkMaskFrame_of_lt (nCh H W : ℕ) (c : ℤ) (h0 : 0 ≤ c) (h1 : c < nCh) :
    mkMaskFrame nCh H W c =
      some ((List.replicate nCh (zerosChan H W)).set c.toNat (onesChan H W)) := by
  unfold mkMaskFrame
  simp only [if_neg (show ¬ c < 0 by omega)]
  rw [if_pos ⟨h0, by omega⟩]

lemma mkMaskFrame_none (nCh H W : ℕ) (c : ℤ) (h0 : 0 ≤ c) (h1 : (nCh : ℤ) ≤ c) :
    mkMaskFrame nCh H W c = none := by
  unfold mkMaskFrame
  simp only [if_neg (show ¬ c < 0 by omega)]
  rw [if_neg (by omega)]

lemma hourIndex_bounds (Tp : ℤ) (h : 0 < Tp) (i : ℕ) :
    0 ≤ hourIndex Tp i ∧ hourIndex Tp i < Tp := by
  unfold hourIndex
  rw [Int.fmod_eq_emod _ (le_of_lt h)]
  exact ⟨Int.emod_nonneg _ (by omega), Int.emod_lt_of_pos _ h⟩

lemma dayIndex_bounds (Tp : ℤ) (i : ℕ) : 0 ≤ dayIndex Tp i ∧ dayIndex Tp i < 7 := by
  unfold dayIndex
  rw [Int.fmod_eq_emod _ (by norm_num)]
  exact ⟨Int.emod_nonneg _ (by norm_num), Int.emod_lt_of_pos _ (by norm_num)⟩

lemma mkHourMatrix_eq (n H W : ℕ) (Tp : ℤ) (h1 : 1 ≤ Tp) (h2 : Tp ≤ 24) :
    mkHourMatrix n Tp H W = some ((List.range n).map (hourFrame Tp H W)) := by
  unfold mkHourMatrix
  rw [optList_eq_some ([] : Frame)]
  · rw [List.map_map]
    congr 1
    apply List.map_congr_left
    intro i _
    have hb := hourIndex_bounds Tp (by omega) i
    simp [mkMaskFrame_of_lt 24 H W _ hb.1 (by omega), hourFrame]
  · intro o ho
    obtain ⟨i, _, hi⟩ := List.mem_map.mp ho
    have hb := hourIndex_bounds Tp (by omega) i
    rw [← hi, mkMaskFrame_of_lt 24 H W _ hb.1 (by omega)]
    rfl

lemma npSlice_eq_map (xs : List α) (d : α) (a b : ℤ) (h0 : 0 ≤ a) (hab : a ≤ b)
    (hb : b ≤ (xs.length : ℤ)) :
    npSlice xs a b = (List.range (b - a).toNat).map
      (fun (j : ℕ) => xs.getD (a + (j : ℤ)).toNat d) := by
  apply List.ext_getElem?
  intro i
  by_cases hi : i < (b - a).toNat
  · have hlen : (npSlice xs a b).length = (b - a).toNat := by
      rw [npSlice_length, npIdx_of_nonneg _ _ h0, npIdx_of_nonneg _ _ (by omega)]
      omega
    rw [npSlice_getElem? xs a b i (by omega), npIdx_of_nonneg _ _ h0,
      List.getElem?_map, List.getElem?_range hi]
    have hidx : min a.toNat xs.length + i = (a + i).toNat := by omega
    rw [hidx, List.getElem?_eq_getElem (show (a + (i : ℤ)).toNat < xs.length by omega)]
    rw [Option.map_some']
    rw [List.getD_eq_getElem _ d (show (a + (i : ℤ)).toNat < xs.length by omega)]
  · rw [List.getElem?_eq_none, List.getElem?_eq_none]
    · rw [List.length_map, List.length_range]
      omega
    · rw [npSlice_length, npIdx_of_nonneg _ _ h0, npIdx_of_nonneg _ _ (by omega)]
      omega

lemma concatAxis1_of_length (x y : Arr) (h : x.length = y.length) :
    concatAxis1 x y = some (List.zipWith (· ++ ·) x y) := by
  unfold concatAxis1
  rw [if_pos h]

lemma lagStack_length (data : Arr) (skip T : ℤ) (n : ℕ) :
    (lagStack data skip T n).length = ((data.length : ℤ) - skip).toNat := by
  unfold lagStack
  rw [List.length_map, List.length_range]

lemma lagChunks_succ (data : Arr) (skip T : ℤ) (j n : ℕ) :
    lagChunks data skip T j (n + 1) =
      lagChunks data skip T j n ++ data.getD (skip + j - T * (n + 1)).toNat [] := by
  unfold lagChunks
  rw [List.range_succ, List.map_append, List.flatten_append]
  simp

lemma lagStack_getD (data : Arr) (skip T : ℤ) (n j : ℕ)
    (hj : j < ((data.length : ℤ) - skip).toNat) :
    (lagStack data skip T n).getD j [] = lagChunks data skip T j n := by
  unfold lagStack
  rw [List.getD_eq_getElem _ _ (by rw [List.length_map, List.length_range]; omega)]
  rw [List.getElem_map, List.getElem_range]

lemma buildScale_fold_eq (data : Arr) (skip T : ℤ) (hT : 1 ≤ T)
    (hskip : skip ≤ (data.length : ℤ)) :
    ∀ m : ℕ, T * ((m : ℤ) + 1) ≤ skip →
    (List.range m).foldl
      (fun acc (i : ℕ) => acc.bind fun X =>
        concatAxis1 X (npSlice data (skip - T * (2 + (i : ℤ)))
          ((data.length : ℤ) - T * (2 + (i : ℤ)))))
      (some (npSlice data (skip - T) ((data.length : ℤ) - T)))
    = some (lagStack data skip T (m + 1)) := by
  intro m
  induction m with
  | zero =>
    intro hm
    have hm1 : T ≤ skip := by
      have : T * ((0 : ℤ) + 1) = T := by ring
      omega
    rw [List.range_zero, List.foldl_nil]
    congr 1
    rw [npSlice_eq_map data [] (skip - T) ((data.length : ℤ) - T) (by omega)
      (by omega) (by omega)]
    unfold lagStack
    have hcnt : (((data.length : ℤ) - T) - (skip - T)).toNat
        = ((data.length : ℤ) - skip).toNat := by omega
    rw [hcnt]
    apply List.map_congr_left
    intro j _
    unfold lagChunks
    rw [show List.range 1 = [0] from rfl]
    simp only [List.map_cons, List.map_nil, List.flatten_cons, List.flatten_nil,
      List.append_nil]
    have harg : skip - T + (j : ℤ) = skip + (j : ℤ) - T * ((((0 : ℕ) : ℤ)) + 1) := by
      push_cast
      ring
    rw [harg]
  | succ m ih =>
    intro hm
    have hA : (0 : ℤ) ≤ T * ((m : ℤ) + 1) := by positivity
    have hmcast : T * (((m + 1 : ℕ) : ℤ) + 1) = T * ((m : ℤ) + 1) + T := by
      push_cast
      ring
    have hexp : T * (2 + (m : ℤ)) = T * ((m : ℤ) + 1) + T := by ring
    have hm' : T * ((m : ℤ) + 1) ≤ skip := by omega
    rw [List.range_succ, List.foldl_append, ih hm', List.foldl_cons, List.foldl_nil,
      Option.some_bind]
    have hnn : (0 : ℤ) ≤ skip - T * (2 + (m : ℤ)) := by omega
    rw [npSlice_eq_map data [] (skip - T * (2 + (m : ℤ)))
      ((data.length : ℤ) - T * (2 + (m : ℤ))) hnn (by omega) (by omega)]
    have hcnt : (((data.length : ℤ) - T * (2 + (m : ℤ))) - (skip - T * (2 + (m : ℤ)))).toNat
        = ((data.length : ℤ) - skip).toNat := by omega
    rw [hcnt]
    rw [concatAxis1_of_length _ _ (by rw [lagStack_length, List.length_map, List.length_range])]
    congr 1
    unfold lagStack
    rw [List.zipWith_map_left, List.zipWith_map_right, List.zipWith_same]
    apply List.map_congr_left
    intro j _
    rw [lagChunks_succ data skip T j (m + 1)]
    have harg : skip - T * (2 + (m : ℤ)) + (j : ℤ)
        = skip + (j : ℤ) - T * (((m + 1 : ℕ) : ℤ) + 1) := by
      push_cast
      ring
    rw [harg]

lemma buildScale_eq (data : Arr) (skip T : ℤ) (L : ℕ) (hT : 1 ≤ T) (hL : 0 < L)
    (hspan : T * L ≤ skip) (hskip : skip ≤ (data.length : ℤ)) :
    buildScale data skip T L = some (lagStack data skip T L) := by
  unfold buildScale
  have hL1 : L - 1 + 1 = L := by omega
  have h := buildScale_fold_eq data skip T hT hskip (L - 1)
    (by rw [show ((L - 1 : ℕ) : ℤ) + 1 = (L : ℤ) by omega]; exact hspan)
  rw [h, hL1]

lemma buildScale_nil (data : Arr) (skip T : ℤ) (L : ℕ) (hT : 1 ≤ T) (hL : 0 < L)
    (hspan : T * L ≤ skip) (h2 : 2 * (data.length : ℤ) ≤ skip) :
    buildScale data skip T L = some [] := by
  have key : ∀ k : ℤ, 1 ≤ k → T * k ≤ skip →
      npSlice data (skip - T * k) ((data.length : ℤ) - T * k) = [] := by
    intro k hk hks
    apply npSlice_nil
    have h0 : (0 : ℤ) ≤ skip - T * k := by omega
    have hTk : (0 : ℤ) ≤ T * k := by positivity
    rw [npIdx_of_nonneg _ _ h0]
    unfold npIdx
    split <;> omega
  have hT1 : T * 1 ≤ skip := by
    have := mul_le_mul_of_nonneg_left (show (1 : ℤ) ≤ (L : ℤ) by omega)
      (show (0 : ℤ) ≤ T by omega)
    omega
  unfold buildScale
  rw [show skip - T = skip - T * 1 by ring, show (data.length : ℤ) - T = (data.length : ℤ) - T * 1 by ring]
  rw [key 1 le_rfl hT1]
  have main : ∀ m : ℕ, m ≤ L - 1 →
      (List.range m).foldl
        (fun acc (i : ℕ) => acc.bind fun X =>
          concatAxis1 X (npSlice data (skip - T * (2 + (i : ℤ)))
            ((data.length : ℤ) - T * (2 + (i : ℤ)))))
        (some ([] : Arr))
      = some ([] : Arr) := by
    intro m
    induction m with
    | zero => intro _; rfl
    | succ m ih =>
      intro hmL
      rw [List.range_succ, List.foldl_append, ih (by omega), List.foldl_cons,
        List.foldl_nil, Option.some_bind]
      have hk : T * (2 + (m : ℤ)) ≤ skip := by
        have h1 : (2 + (m : ℤ)) ≤ (L : ℤ) := by omega
        have := mul_le_mul_of_nonneg_left h1 (show (0 : ℤ) ≤ T by omega)
        omega
      rw [key (2 + (m : ℤ)) (by omega) hk]
      rfl
  exact main (L - 1) le_rfl

lemma flatten_chunk (C : ℕ) : ∀ (l : List (List α)) (k : ℕ),
    (∀ x ∈ l, x.length = C) → k < l.length →
    (l.flatten.drop (k * C)).take C = l.getD k [] := by
  intro l
  induction l with
  | nil =>
    intro k _ hk
    exact absurd hk (by simp)
  | cons x rest ih =>
    intro k hall hk
    have hx : x.length = C := hall x (by simp)
    cases k with
    | zero =>
      simp only [Nat.zero_mul, List.drop_zero, List.flatten_cons]
      rw [← hx, List.take_left]
      rfl
    | succ k' =>
      have hmul : (k' + 1) * C = C + k' * C := by ring
      rw [hmul, List.flatten_cons, ← List.drop_drop, List.drop_left' hx,
        List.getD_cons_succ]
      exact ih k' (fun y hy => hall y (by simp [hy])) (by simpa using hk)

lemma lagChunks_props (data : Arr) (C : ℕ) (skip T : ℤ) (j n : ℕ)
    (hC : ∀ f ∈ data, f.length = C) (hT : 1 ≤ T) (hspan : T * n ≤ skip)
    (hj : (j : ℤ) < (data.length : ℤ) - skip) :
    (lagChunks data skip T j n).length = n * C ∧
    ∀ k : ℕ, 1 ≤ k → k ≤ n →
      ((lagChunks data skip T j n).drop ((k - 1) * C)).take C
        = data.getD (skip + (j : ℤ) - T * k).toNat [] := by
  have hidx : ∀ k : ℕ, k < n → (skip + (j : ℤ) - T * ((k : ℤ) + 1)).toNat < data.length := by
    intro k hk
    have h1 : T * ((k : ℤ) + 1) ≤ T * (n : ℤ) :=
      mul_le_mul_of_nonneg_left (by omega) (by omega)
    have h2 : T * 1 ≤ T * ((k : ℤ) + 1) :=
      mul_le_mul_of_nonneg_left (by omega) (by omega)
    have h3 : T * 1 = T := by ring
    omega
  have hlenmem : ∀ k : ℕ, k < n →
      (data.getD (skip + (j : ℤ) - T * ((k : ℤ) + 1)).toNat []).length = C := by
    intro k hk
    have h := hidx k hk
    rw [List.getD_eq_getElem _ _ h]
    exact hC _ (List.getElem_mem h)
  have huniform : ∀ x ∈ (List.range n).map
      (fun (k : ℕ) => data.getD (skip + (j : ℤ) - T * ((k : ℤ) + 1)).toNat []),
      x.length = C := by
    intro x hx
    obtain ⟨k, hk, hkx⟩ := List.mem_map.mp hx
    rw [← hkx]
    exact hlenmem k (List.mem_range.mp hk)
  constructor
  · unfold lagChunks
    rw [List.length_flatten, List.map_map]
    have : List.map (List.length ∘ fun (k : ℕ) =>
        data.getD (skip + (j : ℤ) - T * ((k : ℤ) + 1)).toNat []) (List.range n)
        = List.map (fun _ => C) (List.range n) := by
      apply List.map_congr_left
      intro k hk
      exact hlenmem k (List.mem_range.mp hk)
    rw [this, List.map_const', List.sum_replicate, List.length_range, smul_eq_mul]
  · intro k hk1 hkn
    unfold lagChunks
    rw [flatten_chunk C _ (k - 1) huniform
      (by rw [List.length_map, List.length_range]; omega)]
    rw [List.getD_eq_getElem _ _ (by rw [List.length_map, List.length_range]; omega)]
    rw [List.getElem_map, List.getElem_range]
    rw [show (((k - 1 : ℕ)) : ℤ) + 1 = (k : ℤ) by omega]

lemma mkDayMatrix_eq (n H W : ℕ) (Tp : ℤ) :
    mkDayMatrix n Tp H W = some ((List.range n).map (dayFrame Tp H W)) := by
  unfold mkDayMatrix
  rw [optList_eq_some ([] : Frame)]
  · rw [List.map_map]
    congr 1
    apply List.map_congr_left
    intro i _
    have hb := dayIndex_bounds Tp i
    simp [mkMaskFrame_of_lt 7 H W _ hb.1 (by omega), dayFrame]
  · intro o ho
    obtain ⟨i, _, hi⟩ := List.mem_map.mp ho
    have hb := dayIndex_bounds Tp i
    rw [← hi, mkMaskFrame_of_lt 7 H W _ hb.1 (by omega)]
    rfl

lemma maskMatrix_length (n H W : ℕ) (Tp : ℤ) : (maskMatrix n H W Tp).length = n := by
  unfold maskMatrix
  rw [List.length_zipWith, List.length_map, List.length_map, List.length_range, min_self]

lemma skip_pos (lt : ℕ) (Tt : ℤ) (hlt : 0 < lt) (hTt : 1 ≤ Tt) : 0 < Tt * lt :=
  mul_pos (by omega) (by exact_mod_cast hlt)

lemma create_feature_vector_eq_ok (data : Arr) (poi : Frame) (H W lc lp lt : ℕ)
    (Tc Tp Tt : ℤ) (hlc : 0 < lc) (hlp : 0 < lp) (hlt : 0 < lt)
    (hTc : 1 ≤ Tc) (hTp1 : 1 ≤ Tp) (hTp24 : Tp ≤ 24) (hTt : 1 ≤ Tt)
    (hspanC : Tc * lc ≤ Tt * lt) (hspanP : Tp * lp ≤ Tt * lt)
    (hskip : Tt * lt ≤ (data.length : ℤ)) :
    create_feature_vector data poi H W lc lp lt Tc Tp Tt = .ok
      { X_closeness := some (lagStack data (Tt * lt) Tc lc)
        X_period := some (lagStack data (Tt * lt) Tp lp)
        X_trend := some (lagStack data (Tt * lt) Tt lt)
        T_data := npSlice (maskMatrix data.length H W Tp) (Tt * lt) (data.length : ℤ)
        P_data := List.replicate (lagStack data (Tt * lt) Tc lc).length (normalizePoi poi)
        Y_data := npSlice data (Tt * lt) (data.length : ℤ) } := by
  have hbc := buildScale_eq data (Tt * lt) Tc lc hTc hlc hspanC hskip
  have hbp := buildScale_eq data (Tt * lt) Tp lp hTp1 hlp hspanP hskip
  have hbt := buildScale_eq data (Tt * lt) Tt lt hTt hlt le_rfl hskip
  simp only [create_feature_vector, mkHourMatrix_eq data.length H W Tp hTp1 hTp24,
    mkDayMatrix_eq data.length H W Tp, numberOfSkipHours, if_pos hlt,
    buildScaleField, if_pos hlc, if_pos hlp, hbc, hbp, hbt, maskMatrix,
    List.length_zipWith, List.length_map, List.length_range, min_self]

lemma create_feature_vector_eq_ok_empty (data : Arr) (poi : Frame) (H W lc lp lt : ℕ)
    (Tc Tp Tt : ℤ) (hlc : 0 < lc) (hlp : 0 < lp) (hlt : 0 < lt)
    (hTc : 1 ≤ Tc) (hTp1 : 1 ≤ Tp) (hTp24 : Tp ≤ 24) (hTt : 1 ≤ Tt)
    (hspanC : Tc * lc ≤ Tt * lt) (hspanP : Tp * lp ≤ Tt * lt)
    (hdeg : 2 * (data.length : ℤ) ≤ Tt * lt) :
    create_feature_vector data poi H W lc lp lt Tc Tp Tt = .ok
      { X_closeness := some []
        X_period := some []
        X_trend := some []
        T_data := []
        P_data := []
        Y_data := [] } := by
  have hsp := skip_pos lt Tt hlt hTt
  have hbc := buildScale_nil data (Tt * lt) Tc lc hTc hlc hspanC hdeg
  have hbp := buildScale_nil data (Tt * lt) Tp lp hTp1 hlp hspanP hdeg
  have hbt := buildScale_nil data (Tt * lt) Tt lt hTt hlt le_rfl hdeg
  have hY : npSlice data (Tt * lt) ((data.length : ℤ)) = ([] : Arr) := by
    apply npSlice_nil
    rw [npIdx_of_nonneg _ _ (by omega), npIdx_of_nonneg _ _ (by omega)]
    omega
  have hM : npSlice (maskMatrix data.length H W Tp) (Tt * lt)
      (((maskMatrix data.length H W Tp).length : ℤ)) = ([] : Arr) := by
    apply npSlice_nil
    rw [maskMatrix_length, npIdx_of_nonneg _ _ (by omega), npIdx_of_nonneg _ _ (by omega)]
    omega
  rw [maskMatrix_length] at hM
  unfold maskMatrix at hM
  simp only [create_feature_vector, mkHourMatrix_eq data.length H W Tp hTp1 hTp24,
    mkDayMatrix_eq data.length H W Tp, numberOfSkipHours, if_pos hlt,
    buildScaleField, if_pos hlc, if_pos hlp, hbc, hbp, hbt, maskMatrix,
    List.length_zipWith, List.length_map, List.length_range, min_self, hY, hM,
    List.length_nil, List.replicate_zero]

lemma npSlice_length_of_le (xs : List α) (s : ℤ) (h0 : 0 ≤ s) :
    (npSlice xs s (xs.length : ℤ)).length = ((xs.length : ℤ) - s).toNat := by
  rw [npSlice_length, npIdx_of_nonneg _ _ h0, npIdx_of_nonneg _ _ (by omega)]
  omega

lemma create_feature_vector_Y (data : Arr) (poi : Frame) (H W lc lp lt : ℕ)
    (Tc Tp Tt : ℤ) (fv : FeatureVectors) (skip : ℤ)
    (h : create_feature_vector data poi H W lc lp lt Tc Tp Tt = .ok fv)
    (hs : numberOfSkipHours lc lp lt Tc Tp Tt = .ok skip) :
    fv.Y_data = npSlice data skip (data.length : ℤ) := by
  unfold create_feature_vector at h
  cases hH : mkHourMatrix data.length Tp H W with
  | none =>
    simp only [hH] at h
    exact Except.noConfusion h
  | some MH =>
    simp only [hH] at h
    cases hD : mkDayMatrix data.length Tp H W with
    | none =>
      simp only [hD] at h
      exact Except.noConfusion h
    | some MD =>
      simp only [hD, hs] at h
      cases hc : buildScaleField data skip Tc lc with
      | error e =>
        simp only [hc] at h
        exact Except.noConfusion h
      | ok xC =>
        simp only [hc] at h
        cases hp : buildScaleField data skip Tp lp with
        | error e =>
          simp only [hp] at h
          exact Except.noConfusion h
        | ok xP =>
          simp only [hp] at h
          cases ht : buildScaleField data skip Tt lt with
          | error e =>
            simp only [ht] at h
            exact Except.noConfusion h
          | ok xT =>
            simp only [ht] at h
            cases xC with
            | none => exact Except.noConfusion h
            | some Xc =>
              injection h with h'
              rw [← h']

lemma initDataset_ok (flow : Arr) (poi : Frame) (H W lc lp lt : ℕ) (Tc Tp Tt : ℤ)
    (norm : Bool) (ds : BikeNYCDeepSTN)
    (h : initDataset flow poi H W lc lp lt Tc Tp Tt norm = .ok ds) :
    ∃ fv, create_feature_vector
        (if norm then mapArr (normalizeElem (arrMax flow) (arrMin flow)) flow else flow)
        poi H W lc lp lt Tc Tp Tt = .ok fv ∧
      ds.full_data
        = (if norm then mapArr (normalizeElem (arrMax flow) (arrMin flow)) flow else flow) ∧
      ds.min_max_diff = arrMax flow - arrMin flow ∧
      ds.X_closeness = fv.X_closeness ∧ ds.X_period = fv.X_period ∧
      ds.X_trend = fv.X_trend ∧ ds.T_data = fv.T_data ∧ ds.P_data = fv.P_data ∧
      ds.Y_data = .frames fv.Y_data ∧ ds.use_lead_time = false ∧
      ds.sequential = false ∧ ds.periodical = true := by
  unfold initDataset at h
  cases hfv : create_feature_vector
      (if norm then mapArr (normalizeElem (arrMax flow) (arrMin flow)) flow else flow)
      poi H W lc lp lt Tc Tp Tt with
  | error e =>
    simp only [hfv] at h
    exact Except.noConfusion h
  | ok fv =>
    simp only [hfv] at h
    injection h with h'
    subst h'
    exact ⟨fv, rfl, rfl, rfl, rfl, rfl, rfl, rfl, rfl, rfl, rfl, rfl, rfl⟩

lemma denormalize_normalize (maxD minD x : ℚ) (h : minD < maxD) :
    denormalizeElem maxD minD (normalizeElem maxD minD x) = x := by
  unfold normalizeElem denormalizeElem
  have hne : maxD - minD ≠ 0 := sub_ne_zero.mpr (ne_of_gt h)
  field_simp

lemma mapArr_length (f : ℚ → ℚ) (a : Arr) : (mapArr f a).length = a.length := by
  unfold mapArr
  rw [List.length_map]

lemma mapArr_mapArr (f g : ℚ → ℚ) (a : Arr) (h : ∀ x, g (f x) = x) :
    mapArr g (mapArr f a) = a := by
  unfold mapArr
  rw [List.map_map]
  conv_rhs => rw [← List.map_id a]
  apply List.map_congr_left
  intro fr _
  simp only [Function.comp_apply, List.map_map, id_eq]
  conv_rhs => rw [← List.map_id fr]
  apply List.map_congr_left
  intro ch _
  simp only [Function.comp_apply, List.map_map, id_eq]
  conv_rhs => rw [← List.map_id ch]
  apply List.map_congr_left
  intro row _
  simp only [Function.comp_apply, List.map_map, id_eq]
  conv_rhs => rw [← List.map_id row]
  apply List.map_congr_left
  intro x _
  exact h x

lemma npSlice_mapArr (f : ℚ → ℚ) (a : Arr) (s b : ℤ) :
    npSlice (mapArr f a) s b = mapArr f (npSlice a s b) := by
  unfold npSlice mapArr
  rw [List.length_map, ← List.map_take, ← List.map_drop]

lemma set_replicate_getD (n : ℕ) (z o : Chan) (k c : ℕ) (hk : k < n) (hc : c < n) :
    ((List.replicate n z).set k o).getD c [] = if c = k then o else z := by
  rw [List.getD_eq_getElem?_getD, List.getElem?_set]
  split
  · rename_i hkc
    rw [if_pos hkc.symm]
    simp [List.length_replicate, hk]
  · rename_i hkc
    rw [if_neg (fun hck => hkc hck.symm), List.getElem?_replicate, if_pos hc]
    rfl

lemma chanSum_ones (H W : ℕ) : chanSum (onesChan H W) = H * W := by
  unfold chanSum onesChan
  rw [List.map_replicate, List.sum_replicate, List.sum_replicate]
  simp [nsmul_eq_mul]

lemma chanSum_zeros (H W : ℕ) : chanSum (zerosChan H W) = 0 := by
  unfold chanSum zerosChan
  rw [List.map_replicate, List.sum_replicate, List.sum_replicate]
  simp

lemma sum_replicate_zero_set (n k : ℕ) (x : ℚ) (hk : k < n) :
    ((List.replicate n (0 : ℚ)).set k x).sum = x := by
  induction n generalizing k with
  | zero => omega
  | succ n ih =>
    cases k with
    | zero =>
      rw [List.replicate_succ, List.set_cons_zero, List.sum_cons, List.sum_replicate]
      simp
    | succ k' =>
      rw [List.replicate_succ, List.set_cons_succ, List.sum_cons, ih k' (by omega)]
      ring

lemma frameSum_mask (nCh H W k : ℕ) (hk : k < nCh) :
    frameSum ((List.replicate nCh (zerosChan H W)).set k (onesChan H W)) = H * W := by
  unfold frameSum
  rw [List.map_set, List.map_replicate, chanSum_ones, chanSum_zeros]
  exact sum_replicate_zero_set nCh k _ hk

lemma set_sequential_spec (st : BikeNYCDeepSTN) (hl pl : ℕ) :
    (hl + pl < st.full_data.length →
      set_sequential_representation st hl pl = .ok { st with
        X_data := some ((List.range' (hl + pl) (st.full_data.length - (hl + pl))).map
          (fun (e : ℕ) => npSlice st.full_data ((e : ℤ) - pl - hl) ((e : ℤ) - pl)))
        Y_data := .seqs ((List.range' (hl + pl) (st.full_data.length - (hl + pl))).map
          (fun (e : ℕ) => npSlice st.full_data ((e : ℤ) - pl) (e : ℤ)))
        use_lead_time := false
        sequential := true
        periodical := false }) ∧
    (st.full_data.length ≤ hl + pl →
      set_sequential_representation st hl pl = .error .valueError) := by
  constructor
  · intro hlt
    obtain ⟨m, hm⟩ : ∃ m, st.full_data.length - (hl + pl) = m + 1 :=
      ⟨st.full_data.length - (hl + pl) - 1, by omega⟩
    simp only [set_sequential_representation]
    rw [hm, List.range'_succ]
    rfl
  · intro hge
    have hz : st.full_data.length - (hl + pl) = 0 := by omega
    simp only [set_sequential_representation]
    rw [hz, List.range'_zero]
    rfl

instance exceptDecEq {ε α : Type} [DecidableEq ε] [DecidableEq α] :
    DecidableEq (Except ε α) := fun x y =>
  match x, y with
  | .error e, .error f =>
    if h : e = f then .isTrue (by rw [h]) else .isFalse (fun hc => h (by cases hc; rfl))
  | .error _, .ok _ => .isFalse (fun hc => Except.noConfusion hc)
  | .ok _, .error _ => .isFalse (fun hc => Except.noConfusion hc)
  | .ok a, .ok b =>
    if h : a = b then .isTrue (by rw [h]) else .isFalse (fun hc => h (by cases hc; rfl))

/-- Single-cell single-channel frame holding one rational value, used in
concrete witnesses and counterexamples. -/
def frameOf (q : ℚ) : Frame := [[[q]]]

/-- One-channel 1×1 POI grid. -/
def poiOne : Frame := [[[1]]]

/-- Four-frame series 0,1,2,3. -/
def data4c : Arr := [frameOf 0, frameOf 1, frameOf 2, frameOf 3]

/-- Five-frame series 0,1,2,3,4. -/
def data5c : Arr := [frameOf 0, frameOf 1, frameOf 2, frameOf 3, frameOf 4]

/-- Two-frame series 0,1. -/
def data2c : Arr := [frameOf 0, frameOf 1]

/-- Three-frame series 0,1,2. -/
def data3c : Arr := [frameOf 0, frameOf 1, frameOf 2]

/-- Two-frame series 0,2 (distinct extrema for normalisation). -/
def flow2q : Arr := [frameOf 0, frameOf 2]

/-- C1: during dataset construction the skip offset follows the fixed
priority rule of lines 171-178 — `T_trend*len_trend` when `len_trend > 0`,
else `T_period*len_period` when `len_period > 0`, else
`T_closeness*len_closeness` when `len_closeness > 0` — and when none of
the three window lengths is positive, `_create_feature_vector` fails with
the `InvalidParametersException` error instead of producing any arrays
(the bound `1 ≤ T_period ≤ 24` keeps the earlier hour-mask loop from
failing first). -/
theorem C1_skip_priority_rule :
    (∀ (lc lp lt : ℕ) (Tc Tp Tt : ℤ),
      (0 < lt → numberOfSkipHours lc lp lt Tc Tp Tt = .ok (Tt * lt)) ∧
      (lt = 0 → 0 < lp → numberOfSkipHours lc lp lt Tc Tp Tt = .ok (Tp * lp)) ∧
      (lt = 0 → lp = 0 → 0 < lc → numberOfSkipHours lc lp lt Tc Tp Tt = .ok (Tc * lc)) ∧
      (lt = 0 → lp = 0 → lc = 0 →
        numberOfSkipHours lc lp lt Tc Tp Tt = .error .invalidParameters)) ∧
    (∀ (data : Arr) (poi : Frame) (H W : ℕ) (Tc Tp Tt : ℤ), 1 ≤ Tp → Tp ≤ 24 →
      create_feature_vector data poi H W 0 0 0 Tc Tp Tt = .error .invalidParameters) := by
  constructor
  · intro lc lp lt Tc Tp Tt
    refine ⟨?_, ?_, ?_, ?_⟩
    · intro hlt
      simp [numberOfSkipHours, hlt]
    · intro hlt hlp
      simp [numberOfSkipHours, hlt, hlp]
    · intro hlt hlp hlc
      simp [numberOfSkipHours, hlt, hlp, hlc]
    · intro hlt hlp hlc
      simp [numberOfSkipHours, hlt, hlp, hlc]
  · intro data poi H W Tc Tp Tt hTp1 hTp24
    simp [create_feature_vector, mkHourMatrix_eq data.length H W Tp hTp1 hTp24,
      mkDayMatrix_eq data.length H W Tp, numberOfSkipHours]

/-- Witness for C1 at concrete parameter combinations, disabling each
scale in turn. -/
theorem C1_skip_priority_rule_witness :
    numberOfSkipHours 3 4 4 1 24 168 = .ok (168 * ((4 : ℕ) : ℤ)) ∧
    numberOfSkipHours 3 4 0 1 24 168 = .ok (24 * ((4 : ℕ) : ℤ)) ∧
    numberOfSkipHours 3 0 0 1 24 168 = .ok (1 * ((3 : ℕ) : ℤ)) ∧
    numberOfSkipHours 0 0 0 1 24 168 = .error .invalidParameters ∧
    create_feature_vector [frameOf 0] poiOne 1 1 0 0 0 1 24 168
      = .error .invalidParameters :=
  ⟨(C1_skip_priority_rule.1 3 4 4 1 24 168).1 (by decide),
   (C1_skip_priority_rule.1 3 4 0 1 24 168).2.1 (by decide) (by decide),
   (C1_skip_priority_rule.1 3 0 0 1 24 168).2.2.1 (by decide) (by decide) (by decide),
   (C1_skip_priority_rule.1 0 0 0 1 24 168).2.2.2 (by decide) (by decide) (by decide),
   C1_skip_priority_rule.2 [frameOf 0] poiOne 1 1 1 24 168 (by decide) (by decide)⟩

/-- C2 (amended): for an enabled scale with step `T ≥ 1` and length `L`
whose lag span `T*L` is at most the skip offset, with the skip offset at
most `len_total`, the scale loop produces exactly the channel-axis
concatenation of the lagged slices in increasing lag order: the stack has
`len_total - skip` samples, sample `j` has `L*channels` channels, and its
`k`-th channel chunk (`k = 1..L`) is the frame `raw[skip + j - T*k]`. -/
theorem C2_scale_window_content (data : Arr) (C : ℕ) (skip T : ℤ) (L : ℕ)
    (hC : ∀ f ∈ data, f.length = C) (hT : 1 ≤ T) (hL : 0 < L)
    (hspan : T * L ≤ skip) (hskip : skip ≤ (data.length : ℤ)) :
    buildScale data skip T L = some (lagStack data skip T L) ∧
    (lagStack data skip T L).length = ((data.length : ℤ) - skip).toNat ∧
    ∀ j : ℕ, j < ((data.length : ℤ) - skip).toNat →
      ((lagStack data skip T L).getD j []).length = L * C ∧
      ∀ k : ℕ, 1 ≤ k → k ≤ L →
        (((lagStack data skip T L).getD j []).drop ((k - 1) * C)).take C
          = data.getD (skip + (j : ℤ) - T * k).toNat [] := by
  refine ⟨buildScale_eq data skip T L hT hL hspan hskip,
    lagStack_length data skip T L, ?_⟩
  intro j hj
  rw [lagStack_getD data skip T L j hj]
  have hprops := lagChunks_props data C skip T j L hC hT hspan (by omega)
  exact ⟨by rw [hprops.1], hprops.2⟩

/-- Witness for C2: five-frame series, skip 2, step 1, two lags. -/
theorem C2_scale_window_content_witness :
    buildScale data5c 2 1 2 = some (lagStack data5c 2 1 2) ∧
    (lagStack data5c 2 1 2).length = ((data5c.length : ℤ) - 2).toNat :=
  ⟨(C2_scale_window_content data5c 1 2 1 2 (by decide) (by decide) (by decide)
      (by decide) (by decide)).1,
   (C2_scale_window_content data5c 1 2 1 2 (by decide) (by decide) (by decide)
      (by decide) (by decide)).2.1⟩

/-- Counterexample for C2 as stated: with `len_closeness = 2`,
`T_closeness = 1`, `len_period = 0`, `len_trend = 1`, `T_trend = 1` the
skip offset is 1, the second closeness lag slice `raw[-1 : 2]` is empty
under numpy negative-index wrapping, `np.concatenate` raises
`ValueError`, and no closeness array of the claimed shape is produced. -/
theorem C2_counterexample :
    numberOfSkipHours 2 0 1 1 1 1 = .ok 1 ∧
    create_feature_vector data4c poiOne 1 1 2 0 1 1 1 1 = .error .valueError := by
  decide

/-- Counterexample for C4 as stated: with trend enabled at span
`T_trend*len_trend = 1` and period enabled at span `T_period*len_period
= 24`, the code's skip offset is 1 while the maximum enabled lag span is
24. -/
theorem C4_counterexample :
    numberOfSkipHours 0 1 1 1 24 1 = .ok 1 ∧
    specSkipMax 0 1 1 1 24 1 = .ok 24 ∧ (1 : ℤ) ≠ 24 := by
  decide

/-- C4 (amended): the skip offset equals the maximum lag span over the
enabled scales exactly when the priority-selected scale's span dominates
the other enabled spans — when trend is enabled and its span dominates,
or trend is disabled, period enabled and dominating closeness, or only
closeness is enabled. -/
theorem C4_skip_is_max_span_when_dominant (lc lp lt : ℕ) (Tc Tp Tt : ℤ)
    (h : (0 < lt ∧ (0 < lc → Tc * lc ≤ Tt * lt) ∧ (0 < lp → Tp * lp ≤ Tt * lt)) ∨
         (lt = 0 ∧ 0 < lp ∧ (0 < lc → Tc * lc ≤ Tp * lp)) ∨
         (lt = 0 ∧ lp = 0 ∧ 0 < lc)) :
    numberOfSkipHours lc lp lt Tc Tp Tt = specSkipMax lc lp lt Tc Tp Tt := by
  rcases h with ⟨hlt, hc, hp⟩ | ⟨hlt0, hlp, hc⟩ | ⟨hlt0, hlp0, hlc⟩
  · unfold numberOfSkipHours specSkipMax
    rw [if_pos hlt, if_pos hlt]
    by_cases hlc : 0 < lc
    · rw [if_pos hlc]
      by_cases hlp : 0 < lp
      · rw [if_pos hlp]
        simp only [List.cons_append, List.nil_append, List.foldl_cons, List.foldl_nil]
        congr 1
        exact (max_eq_right (max_le (hc hlc) (hp hlp))).symm
      · rw [if_neg hlp]
        simp only [List.cons_append, List.nil_append, List.foldl_cons, List.foldl_nil]
        congr 1
        exact (max_eq_right (hc hlc)).symm
    · rw [if_neg hlc]
      by_cases hlp : 0 < lp
      · rw [if_pos hlp]
        simp only [List.cons_append, List.nil_append, List.foldl_cons, List.foldl_nil]
        congr 1
        exact (max_eq_right (hp hlp)).symm
      · rw [if_neg hlp]
        simp only [List.cons_append, List.nil_append, List.foldl_cons, List.foldl_nil]
  · subst hlt0
    unfold numberOfSkipHours specSkipMax
    rw [if_neg (lt_irrefl 0), if_neg (lt_irrefl 0), if_pos hlp, if_pos hlp]
    by_cases hlc : 0 < lc
    · rw [if_pos hlc]
      simp only [List.cons_append, List.nil_append, List.append_nil, List.foldl_cons,
        List.foldl_nil]
      congr 1
      exact (max_eq_right (hc hlc)).symm
    · rw [if_neg hlc]
      simp only [List.nil_append, List.append_nil, List.foldl_nil]
  · subst hlt0
    subst hlp0
    unfold numberOfSkipHours specSkipMax
    rw [if_neg (lt_irrefl 0), if_neg (lt_irrefl 0), if_neg (lt_irrefl 0),
      if_neg (lt_irrefl 0), if_pos hlc, if_pos hlc]
    simp only [List.cons_append, List.nil_append, List.append_nil, List.foldl_nil]

/-- Witness for C4 at the default parameters, where the trend span 672
dominates 96 and 3. -/
theorem C4_skip_is_max_span_when_dominant_witness :
    numberOfSkipHours 3 4 4 1 24 168 = specSkipMax 3 4 4 1 24 168 :=
  C4_skip_is_max_span_when_dominant 3 4 4 1 24 168
    (Or.inl ⟨by decide, fun _ => by decide, fun _ => by decide⟩)

lemma npSlice_maskMatrix_length (n H W : ℕ) (Tp s : ℤ) (h0 : 0 ≤ s) :
    (npSlice (maskMatrix n H W Tp) s (n : ℤ)).length = ((n : ℤ) - s).toNat := by
  have h := npSlice_length_of_le (maskMatrix n H W Tp) s h0
  rw [maskMatrix_length] at h
  exact h

/-- Counterexample for C3 as stated: with `len_closeness = 0` (and only
the trend scale enabled), line 200 reads `self.X_closeness.shape[0]` on a
never-assigned attribute and construction fails with `AttributeError`
instead of succeeding. -/
theorem C3_counterexample :
    create_feature_vector data2c poiOne 1 1 0 0 1 1 1 1 = .error .attributeError := by
  decide

/-- C3 (amended): when all three window lengths are positive, the
closeness and period spans are at most the trend span (which is the skip
offset), `1 ≤ T_period ≤ 24`, and the skip offset is at most `len_total`
(or at least `2*len_total`, in which case every slice is empty),
construction succeeds and the six arrays X_closeness, X_period, X_trend,
T_data, P_data, Y_data all exist with identical leading dimension
`max(len_total - skip_offset, 0)`. -/
theorem C3_alignment_all_positive (data : Arr) (poi : Frame) (H W lc lp lt : ℕ)
    (Tc Tp Tt : ℤ) (hlc : 0 < lc) (hlp : 0 < lp) (hlt : 0 < lt)
    (hTc : 1 ≤ Tc) (hTp1 : 1 ≤ Tp) (hTp24 : Tp ≤ 24) (hTt : 1 ≤ Tt)
    (hspanC : Tc * lc ≤ Tt * lt) (hspanP : Tp * lp ≤ Tt * lt)
    (hrange : Tt * lt ≤ (data.length : ℤ) ∨ 2 * (data.length : ℤ) ≤ Tt * lt) :
    (create_feature_vector data poi H W lc lp lt Tc Tp Tt).isOk = true ∧
    (fvOf (create_feature_vector data poi H W lc lp lt Tc Tp Tt)).X_closeness.isSome
      = true ∧
    (fvOf (create_feature_vector data poi H W lc lp lt Tc Tp Tt)).X_period.isSome
      = true ∧
    (fvOf (create_feature_vector data poi H W lc lp lt Tc Tp Tt)).X_trend.isSome
      = true ∧
    ((fvOf (create_feature_vector data poi H W lc lp lt Tc Tp Tt)).X_closeness.getD
      []).length = ((data.length : ℤ) - Tt * lt).toNat ∧
    ((fvOf (create_feature_vector data poi H W lc lp lt Tc Tp Tt)).X_period.getD
      []).length = ((data.length : ℤ) - Tt * lt).toNat ∧
    ((fvOf (create_feature_vector data poi H W lc lp lt Tc Tp Tt)).X_trend.getD
      []).length = ((data.length : ℤ) - Tt * lt).toNat ∧
    (fvOf (create_feature_vector data poi H W lc lp lt Tc Tp Tt)).T_data.length
      = ((data.length : ℤ) - Tt * lt).toNat ∧
    (fvOf (create_feature_vector data poi H W lc lp lt Tc Tp Tt)).P_data.length
      = ((data.length : ℤ) - Tt * lt).toNat ∧
    (fvOf (create_feature_vector data poi H W lc lp lt Tc Tp Tt)).Y_data.length
      = ((data.length : ℤ) - Tt * lt).toNat := by
  have hsp := skip_pos lt Tt hlt hTt
  rcases hrange with hle | hdeg
  · rw [create_feature_vector_eq_ok data poi H W lc lp lt Tc Tp Tt hlc hlp hlt hTc
      hTp1 hTp24 hTt hspanC hspanP hle]
    refine ⟨rfl, rfl, rfl, rfl, ?_, ?_, ?_, ?_, ?_, ?_⟩
    · exact lagStack_length data (Tt * lt) Tc lc
    · exact lagStack_length data (Tt * lt) Tp lp
    · exact lagStack_length data (Tt * lt) Tt lt
    · exact npSlice_maskMatrix_length data.length H W Tp (Tt * lt) (by omega)
    · show (List.replicate (lagStack data (Tt * lt) Tc lc).length
        (normalizePoi poi)).length = _
      rw [List.length_replicate, lagStack_length]
    · exact npSlice_length_of_le data (Tt * lt) (by omega)
  · rw [create_feature_vector_eq_ok_empty data poi H W lc lp lt Tc Tp Tt hlc hlp hlt
      hTc hTp1 hTp24 hTt hspanC hspanP hdeg]
    have hN : ((data.length : ℤ) - Tt * lt).toNat = 0 := by omega
    exact ⟨rfl, rfl, rfl, rfl, hN.symm, hN.symm, hN.symm, hN.symm, hN.symm, hN.symm⟩

/-- Witness for C3 at a concrete all-enabled configuration. -/
theorem C3_alignment_all_positive_witness :
    (create_feature_vector data2c poiOne 1 1 1 1 1 1 1 1).isOk = true ∧
    (fvOf (create_feature_vector data2c poiOne 1 1 1 1 1 1 1 1)).Y_data.length
      = ((data2c.length : ℤ) - 1 * ((1 : ℕ) : ℤ)).toNat :=
  ⟨(C3_alignment_all_positive data2c poiOne 1 1 1 1 1 1 1 1 (by decide) (by decide)
      (by decide) (by decide) (by decide) (by decide) (by decide) (by decide)
      (by decide) (Or.inl (by decide))).1,
   (C3_alignment_all_positive data2c poiOne 1 1 1 1 1 1 1 1 (by decide) (by decide)
      (by decide) (by decide) (by decide) (by decide) (by decide) (by decide)
      (by decide) (Or.inl (by decide))).2.2.2.2.2.2.2.2.2⟩

/-- Counterexample for C7 as stated: with `len_total = 5`,
`len_closeness = 1`, `len_period = 1`, `len_trend = 3`, `T_closeness = 1`,
`T_period = 1`, `T_trend = 3`, the computed skip offset 9 exceeds
`len_total`, yet construction fails with a `ValueError` (the second trend
lag slice `raw[3:-1]` is non-empty under numpy negative-index wrapping
while the first is empty, so `np.concatenate` raises) instead of
producing zero-length arrays. -/
theorem C7_counterexample :
    numberOfSkipHours 1 1 3 1 1 3 = .ok 9 ∧ (data5c.length : ℤ) < 9 ∧
    create_feature_vector data5c poiOne 1 1 1 1 3 1 1 3 = .error .valueError := by
  decide

/-- C7 (amended): with the default parameters (3/4/4, 1/24/168, skip 672)
and `len_total ≤ 336` (in particular the spec's `len_total = 200`
scenario, where `672 > len_total`), construction does not fail: every
scale array, `Y_data`, `T_data` and `P_data` are produced with leading
dimension 0, and `__len__` in the initial periodical mode returns 0.  For
`336 < len_total < 672` construction can instead raise a `ValueError`
(see the counterexample). -/
theorem C7_degenerate_defaults (flow : Arr) (poi : Frame) (H W : ℕ)
    (hlen : flow.length ≤ 336) :
    (initDataset flow poi H W 3 4 4 1 24 168 true).isOk = true ∧
    (dsOf (initDataset flow poi H W 3 4 4 1 24 168 true)).X_closeness = some [] ∧
    (dsOf (initDataset flow poi H W 3 4 4 1 24 168 true)).X_period = some [] ∧
    (dsOf (initDataset flow poi H W 3 4 4 1 24 168 true)).X_trend = some [] ∧
    (dsOf (initDataset flow poi H W 3 4 4 1 24 168 true)).Y_data = .frames [] ∧
    (dsOf (initDataset flow poi H W 3 4 4 1 24 168 true)).T_data = [] ∧
    (dsOf (initDataset flow poi H W 3 4 4 1 24 168 true)).P_data = [] ∧
    (dsOf (initDataset flow poi H W 3 4 4 1 24 168 true)).periodical = true ∧
    datasetLen (dsOf (initDataset flow poi H W 3 4 4 1 24 168 true)) = 0 := by
  have hdeg : 2 * (((mapArr (normalizeElem (arrMax flow) (arrMin flow)) flow).length : ℤ))
      ≤ 168 * ((4 : ℕ) : ℤ) := by
    rw [mapArr_length]
    push_cast
    omega
  have hcfv := create_feature_vector_eq_ok_empty
    (mapArr (normalizeElem (arrMax flow) (arrMin flow)) flow) poi H W 3 4 4 1 24 168
    (by decide) (by decide) (by decide) (by decide) (by decide) (by decide)
    (by decide) (by decide) (by decide) hdeg
  have hinit : initDataset flow poi H W 3 4 4 1 24 168 true = .ok
      { full_data := mapArr (normalizeElem (arrMax flow) (arrMin flow)) flow
        min_max_diff := arrMax flow - arrMin flow
        X_closeness := some []
        X_period := some []
        X_trend := some []
        T_data := []
        P_data := []
        Y_data := .frames []
        X_data := none
        lead_time_data := none
        lead_time := none
        use_lead_time := false
        sequential := false
        periodical := true } := by
    simp only [initDataset, if_true]
    rw [hcfv]
  rw [hinit]
  exact ⟨rfl, rfl, rfl, rfl, rfl, rfl, rfl, rfl, rfl⟩

/-- Witness for C7 at the spec's 200-frame scenario. -/
theorem C7_degenerate_defaults_witness :
    (List.replicate 200 (frameOf 0)).length ≤ 336 ∧
    datasetLen (dsOf (initDataset (List.replicate 200 (frameOf 0)) poiOne 1 1
      3 4 4 1 24 168 true)) = 0 :=
  ⟨by rw [List.length_replicate]; norm_num,
   (C7_degenerate_defaults (List.replicate 200 (frameOf 0)) poiOne 1 1
      (by rw [List.length_replicate]; norm_num)).2.2.2.2.2.2.2.2⟩

/-- C5: with normalization requested, every element is replaced by
`(2x - (max+min)) / (max-min)`, the value `max - min` is stored and
returned unchanged by `get_min_max_difference`, and the inverse map
`y ↦ (y*(max-min) + (max+min)) / 2` recovers every pre-normalization
value exactly over the rationals (given `max > min`) — in particular
applying it elementwise to `Y_data` recovers the original
pre-normalization target slice. -/
theorem C5_normalization_round_trip (flow : Arr) (poi : Frame) (H W lc lp lt : ℕ)
    (Tc Tp Tt : ℤ) (skip : ℤ) (ds : BikeNYCDeepSTN)
    (hminmax : arrMin flow < arrMax flow)
    (hskip : numberOfSkipHours lc lp lt Tc Tp Tt = .ok skip)
    (hok : initDataset flow poi H W lc lp lt Tc Tp Tt true = .ok ds) :
    get_min_max_difference ds = arrMax flow - arrMin flow ∧
    (∀ x : ℚ, denormalizeElem (arrMax flow) (arrMin flow)
      (normalizeElem (arrMax flow) (arrMin flow) x) = x) ∧
    ds.full_data = mapArr (normalizeElem (arrMax flow) (arrMin flow)) flow ∧
    ds.Y_data = .frames (npSlice ds.full_data skip (flow.length : ℤ)) ∧
    YVal.mapQ (denormalizeElem (arrMax flow) (arrMin flow)) ds.Y_data
      = .frames (npSlice flow skip (flow.length : ℤ)) := by
  obtain ⟨fv, hfv, hfull, hdiff, _, _, _, _, _, hY, _, _, _⟩ :=
    initDataset_ok flow poi H W lc lp lt Tc Tp Tt true ds hok
  rw [if_pos rfl] at hfull hfv
  have hround := fun x => denormalize_normalize (arrMax flow) (arrMin flow) x hminmax
  have hYv := create_feature_vector_Y
    (mapArr (normalizeElem (arrMax flow) (arrMin flow)) flow) poi H W lc lp lt
    Tc Tp Tt fv skip hfv hskip
  rw [mapArr_length] at hYv
  refine ⟨by rw [get_min_max_difference, hdiff], hround, hfull, ?_, ?_⟩
  · rw [hY, hYv, hfull]
  · rw [hY, hYv]
    show YVal.frames (mapArr (denormalizeElem (arrMax flow) (arrMin flow))
      (npSlice (mapArr (normalizeElem (arrMax flow) (arrMin flow)) flow) skip
        (flow.length : ℤ))) = _
    rw [npSlice_mapArr, mapArr_mapArr _ _ _ hround]

lemma eq_ok_dsOf (r : Except CreateError BikeNYCDeepSTN) (h : r.isOk = true) :
    r = .ok (dsOf r) := by
  cases r with
  | error e => exact Bool.noConfusion h
  | ok v => rfl

/-- Witness for C5 on a two-frame series with extrema 0 and 2. -/
theorem C5_normalization_round_trip_witness :
    arrMin flow2q < arrMax flow2q ∧
    get_min_max_difference (dsOf (initDataset flow2q poiOne 1 1 1 1 1 1 1 1 true))
      = arrMax flow2q - arrMin flow2q :=
  ⟨by decide,
   (C5_normalization_round_trip flow2q poiOne 1 1 1 1 1 1 1 1 1
      (dsOf (initDataset flow2q poiOne 1 1 1 1 1 1 1 1 true))
      (by decide) (by decide) (eq_ok_dsOf _ (by decide))).1⟩

/-- C6: for every timestep `i` the temporal mask sets every spatial cell
of hour channel `i mod T_period` and day channel `(i div T_period) mod 7`
to 1 and every other channel to 0, so each per-timestep (24,H,W) hour
mask and (7,H,W) day mask sums to exactly `H*W` (with the hour encoding
well defined for `1 ≤ T_period ≤ 24`). -/
theorem C6_temporal_mask_one_hot (lenTotal H W : ℕ) (Tp : ℤ)
    (h1 : 1 ≤ Tp) (h2 : Tp ≤ 24) :
    mkHourMatrix lenTotal Tp H W
      = some ((List.range lenTotal).map (hourFrame Tp H W)) ∧
    mkDayMatrix lenTotal Tp H W
      = some ((List.range lenTotal).map (dayFrame Tp H W)) ∧
    ∀ i : ℕ, i < lenTotal →
      (∀ c : ℕ, c < 24 → (hourFrame Tp H W i).getD c []
        = if (c : ℤ) = hourIndex Tp i then onesChan H W else zerosChan H W) ∧
      (∀ c : ℕ, c < 7 → (dayFrame Tp H W i).getD c []
        = if (c : ℤ) = dayIndex Tp i then onesChan H W else zerosChan H W) ∧
      frameSum (hourFrame Tp H W i) = H * W ∧
      frameSum (dayFrame Tp H W i) = H * W := by
  refine ⟨mkHourMatrix_eq lenTotal H W Tp h1 h2, mkDayMatrix_eq lenTotal H W Tp, ?_⟩
  intro i _
  have hhb := hourIndex_bounds Tp (by omega) i
  have hdb := dayIndex_bounds Tp i
  refine ⟨?_, ?_, ?_, ?_⟩
  · intro c hc
    unfold hourFrame
    rw [set_replicate_getD 24 _ _ _ c (by omega) hc]
    rw [if_congr (show (c = (hourIndex Tp i).toNat) ↔ ((c : ℤ) = hourIndex Tp i)
      by omega) rfl rfl]
  · intro c hc
    unfold dayFrame
    rw [set_replicate_getD 7 _ _ _ c (by omega) hc]
    rw [if_congr (show (c = (dayIndex Tp i).toNat) ↔ ((c : ℤ) = dayIndex Tp i)
      by omega) rfl rfl]
  · exact frameSum_mask 24 H W _ (by omega)
  · exact frameSum_mask 7 H W _ (by omega)

/-- Witness for C6 at `T_period = 24`, two timesteps, 1×1 grid. -/
theorem C6_temporal_mask_one_hot_witness :
    mkHourMatrix 2 24 1 1 = some ((List.range 2).map (hourFrame 24 1 1)) ∧
    frameSum (hourFrame 24 1 1 0) = 1 * 1 ∧ frameSum (dayFrame 24 1 1 0) = 1 * 1 :=
  ⟨(C6_temporal_mask_one_hot 2 1 1 24 (by decide) (by decide)).1,
   ((C6_temporal_mask_one_hot 2 1 1 24 (by decide) (by decide)).2.2 0
      (by decide)).2.2.1,
   ((C6_temporal_mask_one_hot 2 1 1 24 (by decide) (by decide)).2.2 0
      (by decide)).2.2.2⟩

/-- Counterexample for C8 as stated: `set_sequential_representation`
overwrites the stored `Y_data` (line 88 of the source assigns
`self.Y_data = torch.tensor(predict_data)`), so the previously computed
periodical target array is discarded. -/
theorem C8_counterexample :
    (dsOf (set_sequential_representation
      (dsOf (initDataset data3c poiOne 1 1 1 1 1 1 1 1 false)) 1 1)).Y_data
      ≠ (dsOf (initDataset data3c poiOne 1 1 1 1 1 1 1 1 false)).Y_data := by
  decide

/-- C8 (amended): `merge_closeness_period_trend` discards no stored data
(every stored array is left unchanged; only the lead-time attributes and
mode flags consulted by `__len__`/`__getitem__` change), and
`set_sequential_representation` leaves X_closeness, X_period, X_trend,
T_data, P_data and the full series unchanged but overwrites `Y_data`
with the stacked prediction windows and assigns `X_data`. -/
theorem C8_mode_switch_frame (st : BikeNYCDeepSTN) (lead : ℤ) (hl pl : ℕ)
    (ds' : BikeNYCDeepSTN)
    (hseq : set_sequential_representation st hl pl = .ok ds') :
    ((merge_closeness_period_trend st lead).full_data = st.full_data ∧
     (merge_closeness_period_trend st lead).min_max_diff = st.min_max_diff ∧
     (merge_closeness_period_trend st lead).X_closeness = st.X_closeness ∧
     (merge_closeness_period_trend st lead).X_period = st.X_period ∧
     (merge_closeness_period_trend st lead).X_trend = st.X_trend ∧
     (merge_closeness_period_trend st lead).T_data = st.T_data ∧
     (merge_closeness_period_trend st lead).P_data = st.P_data ∧
     (merge_closeness_period_trend st lead).Y_data = st.Y_data ∧
     (merge_closeness_period_trend st lead).X_data = st.X_data) ∧
    (ds'.full_data = st.full_data ∧ ds'.min_max_diff = st.min_max_diff ∧
     ds'.X_closeness = st.X_closeness ∧ ds'.X_period = st.X_period ∧
     ds'.X_trend = st.X_trend ∧ ds'.T_data = st.T_data ∧ ds'.P_data = st.P_data ∧
     ds'.lead_time_data = st.lead_time_data ∧
     ds'.Y_data = .seqs ((List.range' (hl + pl) (st.full_data.length - (hl + pl))).map
       (fun (e : ℕ) => npSlice st.full_data ((e : ℤ) - pl) (e : ℤ))) ∧
     ds'.X_data = some ((List.range' (hl + pl) (st.full_data.length - (hl + pl))).map
       (fun (e : ℕ) => npSlice st.full_data ((e : ℤ) - pl - hl) ((e : ℤ) - pl)))) := by
  constructor
  · exact ⟨rfl, rfl, rfl, rfl, rfl, rfl, rfl, rfl, rfl⟩
  · by_cases hlt : hl + pl < st.full_data.length
    · have hok := (set_sequential_spec st hl pl).1 hlt
      rw [hok] at hseq
      injection hseq with h'
      subst h'
      exact ⟨rfl, rfl, rfl, rfl, rfl, rfl, rfl, rfl, rfl, rfl⟩
    · have herr := (set_sequential_spec st hl pl).2 (by omega)
      rw [herr] at hseq
      exact Except.noConfusion hseq

/-- Witness for C8 on a concrete three-frame dataset. -/
theorem C8_mode_switch_frame_witness :
    (merge_closeness_period_trend
      (dsOf (initDataset data3c poiOne 1 1 1 1 1 1 1 1 false)) 48).Y_data
      = (dsOf (initDataset data3c poiOne 1 1 1 1 1 1 1 1 false)).Y_data ∧
    (dsOf (set_sequential_representation
      (dsOf (initDataset data3c poiOne 1 1 1 1 1 1 1 1 false)) 1 1)).T_data
      = (dsOf (initDataset data3c poiOne 1 1 1 1 1 1 1 1 false)).T_data :=
  ⟨(C8_mode_switch_frame _ 48 1 1 _ (eq_ok_dsOf _ (by decide))).1.2.2.2.2.2.2.2.1,
   (C8_mode_switch_frame _ 48 1 1 _ (eq_ok_dsOf _ (by decide))).2.2.2.2.2.2.1⟩

/-- C9: `set_sequential_representation` raises an error (the `np.stack`
`ValueError` on an empty sample list) exactly when
`history_length + prediction_length ≥ len_total`, and otherwise succeeds
with dataset length `len_total - history_length - prediction_length`. -/
theorem C9_sequential_error_iff (st : BikeNYCDeepSTN) (hl pl : ℕ) :
    ((set_sequential_representation st hl pl).isOk = false ↔
      st.full_data.length ≤ hl + pl) ∧
    ∀ ds', set_sequential_representation st hl pl = .ok ds' →
      datasetLen ds' = (st.full_data.length : ℤ) - hl - pl := by
  have hspec := set_sequential_spec st hl pl
  by_cases hlt : hl + pl < st.full_data.length
  · rw [hspec.1 hlt]
    constructor
    · constructor
      · intro hfalse
        exact Bool.noConfusion hfalse
      · intro hle
        omega
    · intro ds' hds
      injection hds with h'
      subst h'
      unfold datasetLen
      simp only [Bool.false_eq_true, if_false, YVal.len, List.length_map,
        List.length_range']
      omega
  · rw [hspec.2 (by omega)]
    constructor
    · simp only [Except.isOk]
      constructor
      · intro _
        omega
      · intro _
        rfl
    · intro ds' hds
      exact Except.noConfusion hds

/-- Witness for C9 on a concrete three-frame dataset with history and
prediction lengths 1. -/
theorem C9_sequential_error_iff_witness :
    ((set_sequential_representation
        (dsOf (initDataset data3c poiOne 1 1 1 1 1 1 1 1 false)) 1 1).isOk = false ↔
      (dsOf (initDataset data3c poiOne 1 1 1 1 1 1 1 1 false)).full_data.length
        ≤ 1 + 1) ∧
    datasetLen (dsOf (set_sequential_representation
        (dsOf (initDataset data3c poiOne 1 1 1 1 1 1 1 1 false)) 1 1))
      = ((dsOf (initDataset data3c poiOne 1 1 1 1 1 1 1 1
          false)).full_data.length : ℤ) - 1 - 1 :=
  ⟨(C9_sequential_error_iff _ 1 1).1,
   (C9_sequential_error_iff _ 1 1).2 _ (eq_ok_dsOf _ (by decide))⟩

/-- C10: the hour one-hot encoding is well defined exactly under the
unstated precondition `T_period ≤ 24` — for `1 ≤ T_period ≤ 24` every
hour index `i mod T_period` lies inside the 24 mask channels and the
hour-matrix loop succeeds for every series length, while for
`T_period > 24` and `len_total > 24` the assignment at timestep 24
is out of bounds and construction fails with an `IndexError` while
building the hour mask. -/
theorem C10_hour_mask_bounds (Tp : ℤ) (n H W : ℕ) :
    (1 ≤ Tp → Tp ≤ 24 →
      (∀ i : ℕ, 0 ≤ hourIndex Tp i ∧ hourIndex Tp i < 24) ∧
      (mkHourMatrix n Tp H W).isSome = true) ∧
    (24 < Tp → 24 < n →
      mkHourMatrix n Tp H W = none ∧
      ∀ (data : Arr) (poi : Frame) (lc lp lt : ℕ) (Tc Tt : ℤ), data.length = n →
        create_feature_vector data poi H W lc lp lt Tc Tp Tt
          = .error .indexError) := by
  constructor
  · intro h1 h2
    constructor
    · intro i
      have hb := hourIndex_bounds Tp (by omega) i
      exact ⟨hb.1, by omega⟩
    · rw [mkHourMatrix_eq n H W Tp h1 h2]
      rfl
  · intro h24 hn
    have hnone : mkHourMatrix n Tp H W = none := by
      unfold mkHourMatrix
      apply optList_eq_none
      have h24' : hourIndex Tp 24 = 24 := by
        unfold hourIndex
        rw [Int.fmod_eq_emod _ (by omega)]
        exact Int.emod_eq_of_lt (by norm_num) (by omega)
      refine List.mem_map.mpr ⟨24, List.mem_range.mpr hn, ?_⟩
      rw [h24']
      exact mkMaskFrame_none 24 H W 24 (by norm_num) (by norm_num)
    refine ⟨hnone, ?_⟩
    intro data poi lc lp lt Tc Tt hlen
    simp only [create_feature_vector, hlen, hnone]

/-- Witness for C10: `T_period = 24` succeeds, `T_period = 25` with 25
timesteps fails while building the hour mask. -/
theorem C10_hour_mask_bounds_witness :
    (mkHourMatrix 2 24 1 1).isSome = true ∧ mkHourMatrix 25 25 1 1 = none :=
  ⟨((C10_hour_mask_bounds 24 2 1 1).1 (by decide) (by decide)).2,
   ((C10_hour_mask_bounds 25 25 1 1).2 (by decide) (by decide)).1⟩
